import Mathlib

/-!
Shallow embedding of the grid and compartment helpers of the
gridfinity_build123d repository.

The embedded code comes from:
  - src/gridfinity_build123d/compartments.py
    (Compartments.create and its helpers map_range, count_same_row,
    count_same_column; CompartmentsEqual grid construction)
  - src/gridfinity_build123d/bin.py
    (the older duplicated Compartments helpers; the Bin constructor
    height validation)
  - src/gridfinity_build123d/utils.py
    (Utils.locate_grid, Utils.place_by_grid validation, Direction)

Python floats are modelled by rationals, Python ints by integers, and a
Python function that raises is modelled as an Except value.
-/

/-- Embeds the static method Compartments._map_range of compartments.py:
returns (x - in_min) * (out_max - out_min) / (in_max - in_min) + out_min. -/
def Compartments.map_range (x in_min in_max out_min out_max : ℚ) : ℚ :=
  (x - in_min) * (out_max - out_min) / (in_max - in_min) + out_min

/-- The loop of Compartments._count_same_row of compartments.py: walks the
list, counting while the element equals number and returning at the first
mismatch. -/
def Compartments.count_loop (number : ℤ) : List ℤ → ℕ
  | [] => 0
  | item :: rest => if number = item then Compartments.count_loop number rest + 1 else 0

/-- Embeds Compartments._count_same_row of compartments.py: number is
row[r_index] and the loop runs over row[r_index:]. -/
def Compartments.count_same_row (r_index : ℕ) (row : List ℤ) : ℕ :=
  Compartments.count_loop (row.getD r_index 0) (row.drop r_index)

/-- The loop of Compartments._count_same_column of compartments.py: walks the
rows, comparing row[c] with number, returning at the first mismatch. -/
def Compartments.col_loop (number : ℤ) (c : ℕ) : List (List ℤ) → ℕ
  | [] => 0
  | row :: rest => if row.getD c 0 = number then Compartments.col_loop number c rest + 1 else 0

/-- Embeds Compartments._count_same_column of compartments.py: number is
grid[index.1][index.2] and the loop runs over grid[index.1:]. -/
def Compartments.count_same_column (index : ℕ × ℕ) (grid : List (List ℤ)) : ℕ :=
  Compartments.col_loop ((grid.getD index.1 []).getD index.2 0) index.2 (grid.drop index.1)

/-- One compartment emitted by the loop body of Compartments.create: the grid
value it was generated for, the grid position of its first occurrence, its run
lengths, and the size and location passed to Compartment.create. -/
structure Entry where
  value : ℤ
  r : ℕ
  c : ℕ
  units_x : ℕ
  units_y : ℕ
  size_x : ℚ
  size_y : ℚ
  loc_x : ℚ
  loc_y : ℚ
  deriving DecidableEq, Repr

/-- The body of the inner loop of Compartments.create for a processed cell
(row r_index, column c_index, value item): computes units_x, units_y, the
grid-index midpoints, the mapped locations and the compartment size exactly
as the Python code does.  distribute_area and size_unit are as in create,
with len(grid[0]) and len(grid) the column and row counts. -/
def Compartments.mkEntry (grid : List (List ℤ)) (size_x size_y inner_wall outer_wall : ℚ)
    (row : List ℤ) (r_index c_index : ℕ) (item : ℤ) : Entry :=
  let distribute_area_x := size_x - outer_wall * 2 + inner_wall
  let distribute_area_y := size_y - outer_wall * 2 + inner_wall
  let size_unit_x := distribute_area_x / ((grid.headD []).length : ℚ)
  let size_unit_y := distribute_area_y / ((grid.length : ℚ))
  let units_x := Compartments.count_same_row c_index row
  let units_y := Compartments.count_same_column (r_index, c_index) grid
  let middle_x : ℚ := ((c_index : ℚ) + (c_index : ℚ) + (units_x : ℚ)) / 2
  let middle_y : ℚ := ((r_index : ℚ) + (r_index : ℚ) + (units_y : ℚ)) / 2
  let loc_x := Compartments.map_range middle_x 0 ((grid.headD []).length : ℚ) 0 distribute_area_x
  let loc_y := Compartments.map_range middle_y 0 ((grid.length : ℚ)) 0 distribute_area_y * (-1)
  { value := item
    r := r_index
    c := c_index
    units_x := units_x
    units_y := units_y
    size_x := size_unit_x * (units_x : ℚ) - inner_wall
    size_y := size_unit_y * (units_y : ℚ) - inner_wall
    loc_x := loc_x
    loc_y := loc_y }

/-- The inner loop of Compartments.create over the cells of one row, carrying
the state (numbers_proccesed, entries emitted so far).  A cell is processed
when its value is nonzero and not yet in numbers_proccesed. -/
def Compartments.process_cells (grid : List (List ℤ)) (sx sy iw ow : ℚ) (row : List ℤ)
    (r_index : ℕ) : ℕ → List ℤ → List ℤ × List Entry → List ℤ × List Entry
  | _, [], st => st
  | c_index, item :: rest, st =>
    Compartments.process_cells grid sx sy iw ow row r_index (c_index + 1) rest
      (if item ≠ 0 ∧ item ∉ st.1
       then (st.1 ++ [item],
             st.2 ++ [Compartments.mkEntry grid sx sy iw ow row r_index c_index item])
       else st)

/-- The outer loop of Compartments.create over the rows of the grid. -/
def Compartments.process_rows (grid : List (List ℤ)) (sx sy iw ow : ℚ) :
    ℕ → List (List ℤ) → List ℤ × List Entry → List ℤ × List Entry
  | _, [], st => st
  | r_index, row :: rest, st =>
    Compartments.process_rows grid sx sy iw ow (r_index + 1) rest
      (Compartments.process_cells grid sx sy iw ow row r_index 0 row st)

/-- Embeds the compartment-generating loop of Compartments.create of
compartments.py: the list of compartments it emits, in emission order, with
sx, sy the size_x, size_y arguments and iw, ow the inner and outer wall. -/
def Compartments.create_entries (grid : List (List ℤ)) (sx sy iw ow : ℚ) : List Entry :=
  (Compartments.process_rows grid sx sy iw ow 0 grid ([], [])).2

/-- Specification helper: keeps the first occurrence of every value of the
list, dropping later duplicates. -/
def firstDedup : List ℤ → List ℤ
  | [] => []
  | x :: xs => x :: (firstDedup xs).filter (fun y => decide (y ≠ x))

/-- Proof helper: the values newly appended to numbers_proccesed when the
create loop of Compartments runs over cells with numbers_proccesed = seen. -/
def Compartments.new_vals : List ℤ → List ℤ → List ℤ
  | [], _ => []
  | x :: xs, seen =>
    if x ≠ 0 ∧ x ∉ seen
    then x :: Compartments.new_vals xs (seen ++ [x])
    else Compartments.new_vals xs seen

/-- The inner loop of CompartmentsEqual.__init__ of compartments.py: builds
one row of div_x cells from the running counter bin_nr. -/
def CompartmentsEqual.make_row : ℤ → ℕ → List ℤ
  | _, 0 => []
  | bin_nr, n + 1 => bin_nr :: CompartmentsEqual.make_row (bin_nr + 1) n

/-- The outer loop of CompartmentsEqual.__init__ of compartments.py: builds
div_y rows, the counter advancing by div_x per row. -/
def CompartmentsEqual.make_grid (div_x : ℕ) : ℤ → ℕ → List (List ℤ)
  | _, 0 => []
  | bin_nr, n + 1 =>
    CompartmentsEqual.make_row bin_nr div_x ::
      CompartmentsEqual.make_grid div_x (bin_nr + (div_x : ℤ)) n

/-- Embeds the grid built by CompartmentsEqual.__init__(div_x, div_y):
the counter bin_nr starts at 1. -/
def CompartmentsEqual.grid (div_x div_y : ℕ) : List (List ℤ) :=
  CompartmentsEqual.make_grid div_x 1 div_y

/-- The duplicated older Compartments._map_range of bin.py. -/
def BinModule.map_range (x in_min in_max out_min out_max : ℚ) : ℚ :=
  (x - in_min) * (out_max - out_min) / (in_max - in_min) + out_min

/-- The loop of the duplicated older Compartments._count_same_row of bin.py. -/
def BinModule.count_loop (number : ℤ) : List ℤ → ℕ
  | [] => 0
  | item :: rest => if number = item then BinModule.count_loop number rest + 1 else 0

/-- The duplicated older Compartments._count_same_row of bin.py. -/
def BinModule.count_same_row (r_index : ℕ) (row : List ℤ) : ℕ :=
  BinModule.count_loop (row.getD r_index 0) (row.drop r_index)

/-- The loop of the duplicated older Compartments._count_same_column of bin.py. -/
def BinModule.col_loop (number : ℤ) (c : ℕ) : List (List ℤ) → ℕ
  | [] => 0
  | row :: rest => if row.getD c 0 = number then BinModule.col_loop number c rest + 1 else 0

/-- The duplicated older Compartments._count_same_column of bin.py. -/
def BinModule.count_same_column (index : ℕ × ℕ) (grid : List (List ℤ)) : ℕ :=
  BinModule.col_loop ((grid.getD index.1 []).getD index.2 0) index.2 (grid.drop index.1)

/-- Embeds the height validation at the top of Bin.__init__ of bin.py:
raises ValueError (message: height or height_in_units can be defined, not
both) when both arguments are truthy, i.e. both nonzero. -/
def Bin.init_check (height : ℚ) (height_in_units : ℤ) : Except Unit Unit :=
  if height ≠ 0 ∧ height_in_units ≠ 0 then Except.error () else Except.ok ()

/-- The inner loop of Utils.locate_grid of utils.py over one row: a True cell
at column column_nr yields Location((width * (column_nr + 1), length * -(row_nr + 1))). -/
def Utils.locate_row (width length : ℚ) (row_nr : ℕ) : ℕ → List Bool → List (ℚ × ℚ)
  | _, [] => []
  | column_nr, column_value :: rest =>
    (if column_value
     then [(width * ((column_nr : ℚ) + 1), length * (-((row_nr : ℚ) + 1)))]
     else []) ++ Utils.locate_row width length row_nr (column_nr + 1) rest

/-- The outer loop of Utils.locate_grid of utils.py over the rows. -/
def Utils.locate_rows (width length : ℚ) : ℕ → List (List Bool) → List (ℚ × ℚ)
  | _, [] => []
  | row_nr, row :: rest =>
    Utils.locate_row width length row_nr 0 row ++
      Utils.locate_rows width length (row_nr + 1) rest

/-- Embeds Utils.locate_grid of utils.py: the row-major list of locations of
the True cells. -/
def Utils.locate_grid (grid : List (List Bool)) (width length : ℚ) : List (ℚ × ℚ) :=
  Utils.locate_rows width length 0 grid

/-- Embeds the validation of Utils.place_by_grid of utils.py: computes
locate_grid and raises ValueError when the location list is empty. -/
def Utils.place_by_grid (grid : List (List Bool)) (width length : ℚ) :
    Except Unit (List (ℚ × ℚ)) :=
  if Utils.locate_grid grid width length = [] then Except.error ()
  else Except.ok (Utils.locate_grid grid width length)

/-- Specification helper: the columns of the True cells of one row, in order. -/
def Utils.row_true_cols (row : List Bool) : List ℕ :=
  (List.range row.length).filterMap
    (fun c => if row.getD c false then some c else none)

/-- Specification helper: the row-major list of coordinates of the True cells
of a grid. -/
def Utils.true_cells (grid : List (List Bool)) : List (ℕ × ℕ) :=
  ((List.range grid.length).map
    (fun r => (Utils.row_true_cols (grid.getD r [])).map (fun c => (r, c)))).flatten

/-- Embeds the Direction enum of utils.py. -/
inductive Direction
  | TOP
  | BOT
  | RIGHT
  | LEFT
  | BACK
  | FRONT
  deriving DecidableEq, Fintype, Repr

/-- Embeds the static method Direction.to_tuple of utils.py: the match over
the six enum members.  The Lean match is exhaustive, so the function is total
and the ValueError branch documented in the Python docstring is unreachable. -/
def Direction.to_tuple : Direction → ℤ × ℤ × ℤ
  | Direction.TOP => (0, 0, 1)
  | Direction.BOT => (0, 0, -1)
  | Direction.RIGHT => (1, 0, 0)
  | Direction.LEFT => (-1, 0, 0)
  | Direction.BACK => (0, 1, 0)
  | Direction.FRONT => (0, -1, 0)

/-- Proof helper: getD after drop reads at the shifted index. -/
theorem drop_getD {α : Type} (d : α) : ∀ (l : List α) (i j : ℕ),
    (l.drop i).getD j d = l.getD (i + j) d := by
  intro l i
  induction i generalizing l with
  | zero => intro j; simp
  | succ n ih =>
    intro j
    cases l with
    | nil => simp
    | cons x xs =>
      rw [List.drop_succ_cons, ih xs j, Nat.succ_add, List.getD_cons_succ]

/-- Proof helper: every index below the count returned by the loop of
_count_same_row holds the probed number. -/
theorem Compartments.count_loop_prefix (number : ℤ) :
    ∀ (l : List ℤ) (j : ℕ), j < Compartments.count_loop number l → l.getD j 0 = number := by
  intro l
  induction l with
  | nil => intro j hj; simp [Compartments.count_loop] at hj
  | cons item rest ih =>
    intro j hj
    by_cases h : number = item
    · rw [Compartments.count_loop, if_pos h] at hj
      cases j with
      | zero => simpa using h.symm
      | succ j =>
        rw [List.getD_cons_succ]
        exact ih j (by omega)
    · rw [Compartments.count_loop, if_neg h] at hj
      omega

/-- Proof helper: the loop of _count_same_row stops at the end of the list or
at the first mismatch. -/
theorem Compartments.count_loop_boundary (number : ℤ) :
    ∀ l : List ℤ, Compartments.count_loop number l = l.length ∨
      (Compartments.count_loop number l < l.length ∧
        l.getD (Compartments.count_loop number l) 0 ≠ number) := by
  intro l
  induction l with
  | nil => left; rfl
  | cons item rest ih =>
    by_cases h : number = item
    · rw [Compartments.count_loop, if_pos h]
      rcases ih with heq | ⟨hlt, hne⟩
      · left; simp [heq]
      · right
        refine ⟨by simpa using hlt, ?_⟩
        rw [List.getD_cons_succ]
        exact hne
    · rw [Compartments.count_loop, if_neg h]
      right
      refine ⟨by simp, ?_⟩
      rw [List.getD_cons_zero]
      exact fun hh => h hh.symm

/-- Proof helper: every row index below the count returned by the loop of
_count_same_column holds the probed number at column c. -/
theorem Compartments.col_loop_prefix (number : ℤ) (c : ℕ) :
    ∀ (rows : List (List ℤ)) (j : ℕ), j < Compartments.col_loop number c rows →
      (rows.getD j []).getD c 0 = number := by
  intro rows
  induction rows with
  | nil => intro j hj; simp [Compartments.col_loop] at hj
  | cons row rest ih =>
    intro j hj
    by_cases h : row.getD c 0 = number
    · rw [Compartments.col_loop, if_pos h] at hj
      cases j with
      | zero => simpa using h
      | succ j =>
        rw [List.getD_cons_succ]
        exact ih j (by omega)
    · rw [Compartments.col_loop, if_neg h] at hj
      omega

/-- Proof helper: the loop of _count_same_column stops at the last row or at
the first mismatching row. -/
theorem Compartments.col_loop_boundary (number : ℤ) (c : ℕ) :
    ∀ rows : List (List ℤ), Compartments.col_loop number c rows = rows.length ∨
      (Compartments.col_loop number c rows < rows.length ∧
        (rows.getD (Compartments.col_loop number c rows) []).getD c 0 ≠ number) := by
  intro rows
  induction rows with
  | nil => left; rfl
  | cons row rest ih =>
    by_cases h : row.getD c 0 = number
    · rw [Compartments.col_loop, if_pos h]
      rcases ih with heq | ⟨hlt, hne⟩
      · left; simp [heq]
      · right
        refine ⟨by simpa using hlt, ?_⟩
        rw [List.getD_cons_succ]
        exact hne
    · rw [Compartments.col_loop, if_neg h]
      right
      refine ⟨by simp, ?_⟩
      rw [List.getD_cons_zero]
      exact h

/-- C2: for an in-bounds index i of row, _count_same_row returns the length k
of the maximal run of cells equal to row[i] starting at i: all cells at
offsets below k hold row[i], and either i + k is the length of the row or the
cell at i + k differs; symmetrically _count_same_column returns the maximal
downward run length in column c of a rectangular grid starting at row r. -/
theorem count_same_row_column_runs
    (row : List ℤ) (i : ℕ) (hi : i < row.length)
    (grid : List (List ℤ)) (r c : ℕ) (hr : r < grid.length)
    (hc : c < (grid.headD []).length)
    (hrect : ∀ rw ∈ grid, rw.length = (grid.headD []).length) :
    (∀ j < Compartments.count_same_row i row, row.getD (i + j) 0 = row.getD i 0) ∧
    (i + Compartments.count_same_row i row = row.length ∨
      (i + Compartments.count_same_row i row < row.length ∧
        row.getD (i + Compartments.count_same_row i row) 0 ≠ row.getD i 0)) ∧
    (∀ j < Compartments.count_same_column (r, c) grid,
      (grid.getD (r + j) []).getD c 0 = (grid.getD r []).getD c 0) ∧
    (r + Compartments.count_same_column (r, c) grid = grid.length ∨
      (r + Compartments.count_same_column (r, c) grid < grid.length ∧
        (grid.getD (r + Compartments.count_same_column (r, c) grid) []).getD c 0 ≠
          (grid.getD r []).getD c 0)) := by
  have hrow : Compartments.count_same_row i row =
      Compartments.count_loop (row.getD i 0) (row.drop i) := rfl
  have hcol : Compartments.count_same_column (r, c) grid =
      Compartments.col_loop ((grid.getD r []).getD c 0) c (grid.drop r) := rfl
  refine ⟨?_, ?_, ?_, ?_⟩
  · intro j hj
    rw [hrow] at hj
    have := Compartments.count_loop_prefix (row.getD i 0) (row.drop i) j hj
    rwa [drop_getD] at this
  · rcases Compartments.count_loop_boundary (row.getD i 0) (row.drop i) with heq | ⟨hlt, hne⟩
    · left
      rw [hrow, heq, List.length_drop]
      omega
    · right
      rw [List.length_drop] at hlt
      refine ⟨by rw [hrow]; omega, ?_⟩
      rw [hrow, ← drop_getD]
      exact hne
  · intro j hj
    rw [hcol] at hj
    have := Compartments.col_loop_prefix ((grid.getD r []).getD c 0) c (grid.drop r) j hj
    rwa [drop_getD ([] : List ℤ)] at this
  · rcases Compartments.col_loop_boundary ((grid.getD r []).getD c 0) c (grid.drop r) with
      heq | ⟨hlt, hne⟩
    · left
      rw [hcol, heq, List.length_drop]
      omega
    · right
      rw [List.length_drop] at hlt
      refine ⟨by rw [hcol]; omega, ?_⟩
      rw [hcol, ← drop_getD ([] : List ℤ)]
      exact hne

/-- Witness for C2 at row [5, 5, 7], i = 0 and grid [[5, 5], [5, 7]],
(r, c) = (0, 0). -/
theorem count_same_row_column_runs_witness :
    ((0 : ℕ) < ([5, 5, 7] : List ℤ).length ∧
      (0 : ℕ) < ([[5, 5], [5, 7]] : List (List ℤ)).length ∧
      (0 : ℕ) < (([[5, 5], [5, 7]] : List (List ℤ)).headD []).length ∧
      (∀ rw ∈ ([[5, 5], [5, 7]] : List (List ℤ)),
        rw.length = (([[5, 5], [5, 7]] : List (List ℤ)).headD []).length)) ∧
    ((∀ j < Compartments.count_same_row 0 [5, 5, 7],
        ([5, 5, 7] : List ℤ).getD (0 + j) 0 = ([5, 5, 7] : List ℤ).getD 0 0) ∧
      (0 + Compartments.count_same_row 0 [5, 5, 7] = ([5, 5, 7] : List ℤ).length ∨
        (0 + Compartments.count_same_row 0 [5, 5, 7] < ([5, 5, 7] : List ℤ).length ∧
          ([5, 5, 7] : List ℤ).getD (0 + Compartments.count_same_row 0 [5, 5, 7]) 0 ≠
            ([5, 5, 7] : List ℤ).getD 0 0)) ∧
      (∀ j < Compartments.count_same_column (0, 0) [[5, 5], [5, 7]],
        (([[5, 5], [5, 7]] : List (List ℤ)).getD (0 + j) []).getD 0 0 =
          (([[5, 5], [5, 7]] : List (List ℤ)).getD 0 []).getD 0 0) ∧
      (0 + Compartments.count_same_column (0, 0) [[5, 5], [5, 7]] =
          ([[5, 5], [5, 7]] : List (List ℤ)).length ∨
        (0 + Compartments.count_same_column (0, 0) [[5, 5], [5, 7]] <
            ([[5, 5], [5, 7]] : List (List ℤ)).length ∧
          (([[5, 5], [5, 7]] : List (List ℤ)).getD
              (0 + Compartments.count_same_column (0, 0) [[5, 5], [5, 7]]) []).getD 0 0 ≠
            (([[5, 5], [5, 7]] : List (List ℤ)).getD 0 []).getD 0 0))) :=
  ⟨⟨by decide, by decide, by decide, by decide⟩,
    count_same_row_column_runs [5, 5, 7] 0 (by decide) [[5, 5], [5, 7]] 0 0
      (by decide) (by decide) (by decide)⟩

/-- Proof helper: the count loops of bin.py and compartments.py agree. -/
theorem BinModule.count_loop_eq (number : ℤ) :
    ∀ l : List ℤ, BinModule.count_loop number l = Compartments.count_loop number l := by
  intro l
  induction l with
  | nil => rfl
  | cons item rest ih =>
    rw [BinModule.count_loop, Compartments.count_loop, ih]

/-- Proof helper: the column loops of bin.py and compartments.py agree. -/
theorem BinModule.col_loop_eq (number : ℤ) (c : ℕ) :
    ∀ rows : List (List ℤ), BinModule.col_loop number c rows =
      Compartments.col_loop number c rows := by
  intro rows
  induction rows with
  | nil => rfl
  | cons row rest ih =>
    rw [BinModule.col_loop, Compartments.col_loop, ih]

/-- C4: the grid-partition helpers duplicated between the older module version
in bin.py and the newer version in compartments.py (map_range, count_same_row
and count_same_column) are extensionally equal on every input. -/
theorem bin_compartments_helpers_agree :
    (∀ x in_min in_max out_min out_max : ℚ,
      BinModule.map_range x in_min in_max out_min out_max =
        Compartments.map_range x in_min in_max out_min out_max) ∧
    (∀ (r_index : ℕ) (row : List ℤ),
      BinModule.count_same_row r_index row = Compartments.count_same_row r_index row) ∧
    (∀ (index : ℕ × ℕ) (grid : List (List ℤ)),
      BinModule.count_same_column index grid = Compartments.count_same_column index grid) := by
  refine ⟨fun _ _ _ _ _ => rfl, ?_, ?_⟩
  · intro r_index row
    rw [BinModule.count_same_row, Compartments.count_same_row, BinModule.count_loop_eq]
  · intro index grid
    rw [BinModule.count_same_column, Compartments.count_same_column, BinModule.col_loop_eq]

/-- Proof helper: the inner loop of locate_grid yields no location exactly
when its row has no True cell. -/
theorem Utils.locate_row_eq_nil_iff (width length : ℚ) (row_nr : ℕ) :
    ∀ (bs : List Bool) (c : ℕ),
      Utils.locate_row width length row_nr c bs = [] ↔ ∀ b ∈ bs, b = false := by
  intro bs
  induction bs with
  | nil => intro c; simp [Utils.locate_row]
  | cons b rest ih =>
    intro c
    rw [Utils.locate_row, List.append_eq_nil]
    cases b with
    | false => simp [ih (c + 1)]
    | true => simp

/-- Proof helper: locate_grid yields no location exactly when no cell of the
grid is True. -/
theorem Utils.locate_rows_eq_nil_iff (width length : ℚ) :
    ∀ (rows : List (List Bool)) (r : ℕ),
      Utils.locate_rows width length r rows = [] ↔
        ∀ row ∈ rows, ∀ b ∈ row, b = false := by
  intro rows
  induction rows with
  | nil => intro r; simp [Utils.locate_rows]
  | cons row rest ih =>
    intro r
    rw [Utils.locate_rows, List.append_eq_nil, Utils.locate_row_eq_nil_iff, ih (r + 1)]
    simp

/-- C5: Utils.place_by_grid raises ValueError exactly when Utils.locate_grid
returns the empty list for the grid, which happens exactly when the grid has
no True cell. -/
theorem place_by_grid_valueerror_iff (grid : List (List Bool)) (width length : ℚ) :
    ((∃ e, Utils.place_by_grid grid width length = Except.error e) ↔
      Utils.locate_grid grid width length = []) ∧
    (Utils.locate_grid grid width length = [] ↔ ∀ row ∈ grid, ∀ b ∈ row, b = false) := by
  constructor
  · by_cases h : Utils.locate_grid grid width length = []
    · rw [Utils.place_by_grid, if_pos h]
      exact ⟨fun _ => h, fun _ => ⟨(), rfl⟩⟩
    · rw [Utils.place_by_grid, if_neg h]
      simp [h]
  · exact Utils.locate_rows_eq_nil_iff width length grid 0

/-- Proof helper: the inner loop of locate_grid emits, in order, one location
per True cell of the row, at width * (column + 1) and length * -(row_nr + 1). -/
theorem Utils.locate_row_eq_filterMap (width length : ℚ) (row_nr : ℕ) :
    ∀ (bs : List Bool) (c : ℕ),
      Utils.locate_row width length row_nr c bs =
        ((List.range bs.length).filterMap
          (fun i => if bs.getD i false then some (c + i) else none)).map
          (fun (cc : ℕ) => (width * ((cc : ℚ) + 1), length * (-((row_nr : ℚ) + 1)))) := by
  intro bs
  induction bs with
  | nil => intro c; rfl
  | cons b rest ih =>
    intro c
    have hfun : ∀ i ∈ List.range rest.length,
        ((fun i => if (b :: rest).getD i false then some (c + i) else none) ∘ Nat.succ) i =
          (fun i => if rest.getD i false then some ((c + 1) + i) else none) i := by
      intro i _
      have harith : c + (i + 1) = (c + 1) + i := by omega
      simp only [Function.comp_apply, List.getD_cons_succ, Nat.succ_eq_add_one, harith]
    rw [Utils.locate_row, ih (c + 1), List.length_cons, List.range_succ_eq_map,
      List.filterMap_cons, List.filterMap_map, List.filterMap_congr hfun]
    cases b with
    | false => simp
    | true => simp

/-- Proof helper: the outer loop of locate_grid emits, row-major, one location
per True cell, the row offset advancing from the starting row number r. -/
theorem Utils.locate_rows_eq_flatten (width length : ℚ) :
    ∀ (rows : List (List Bool)) (r : ℕ),
      Utils.locate_rows width length r rows =
        ((List.range rows.length).map
          (fun (j : ℕ) => (Utils.row_true_cols (rows.getD j [])).map
            (fun (cc : ℕ) =>
              (width * ((cc : ℚ) + 1), length * (-(((r + j : ℕ) : ℚ) + 1)))))).flatten := by
  intro rows
  induction rows with
  | nil => intro r; rfl
  | cons row rest ih =>
    intro r
    have hcols : Utils.locate_row width length r 0 row =
        (Utils.row_true_cols row).map
          (fun (cc : ℕ) => (width * ((cc : ℚ) + 1), length * (-((r : ℚ) + 1)))) := by
      rw [Utils.locate_row_eq_filterMap, Utils.row_true_cols]
      congr 1
      exact List.filterMap_congr (fun i _ => by rw [Nat.zero_add])
    have hfun : ∀ j ∈ List.range rest.length,
        ((fun (j : ℕ) => (Utils.row_true_cols ((row :: rest).getD j [])).map
            (fun (cc : ℕ) =>
              (width * ((cc : ℚ) + 1), length * (-(((r + j : ℕ) : ℚ) + 1))))) ∘ Nat.succ) j =
          (fun (j : ℕ) => (Utils.row_true_cols (rest.getD j [])).map
            (fun (cc : ℕ) =>
              (width * ((cc : ℚ) + 1), length * (-(((r + 1 + j : ℕ) : ℚ) + 1))))) j := by
      intro j _
      have harith : r + (j + 1) = r + 1 + j := by omega
      simp only [Function.comp_apply, List.getD_cons_succ, Nat.succ_eq_add_one, harith]
    rw [Utils.locate_rows, ih (r + 1), List.length_cons, List.range_succ_eq_map]
    simp only [List.map_cons, List.map_map, List.flatten_cons, List.getD_cons_zero]
    rw [List.map_congr_left hfun, hcols]
    norm_num

/-- C9: Utils.locate_grid returns exactly one location per True cell, in
row-major order of the cells, at coordinates
(width * (column + 1), -(length * (row + 1))); a grid with no True cell
yields the empty list. -/
theorem locate_grid_spec (grid : List (List Bool)) (width length : ℚ) :
    Utils.locate_grid grid width length =
      (Utils.true_cells grid).map
        (fun (rc : ℕ × ℕ) =>
          (width * ((rc.2 : ℚ) + 1), -(length * ((rc.1 : ℚ) + 1)))) ∧
    (Utils.locate_grid grid width length).length = (Utils.true_cells grid).length ∧
    (Utils.locate_grid grid width length = [] ↔ ∀ row ∈ grid, ∀ b ∈ row, b = false) := by
  have h1 : Utils.locate_grid grid width length =
      (Utils.true_cells grid).map
        (fun (rc : ℕ × ℕ) =>
          (width * ((rc.2 : ℚ) + 1), -(length * ((rc.1 : ℚ) + 1)))) := by
    rw [Utils.locate_grid, Utils.locate_rows_eq_flatten, Utils.true_cells,
      List.map_flatten, List.map_map]
    congr 1
    apply List.map_congr_left
    intro j _
    simp only [Function.comp_apply, List.map_map]
    apply List.map_congr_left
    intro cc _
    simp only [Function.comp_apply]
    have harith : (((0 + j : ℕ) : ℚ)) = (j : ℚ) := by
      rw [Nat.zero_add]
    rw [harith]
    exact Prod.ext rfl (by ring)
  refine ⟨h1, ?_, Utils.locate_rows_eq_nil_iff width length grid 0⟩
  rw [h1, List.length_map]

/-- C6: the height validation of Bin.__init__ raises ValueError precisely
when both height and height_in_units are nonzero (Python truthiness of a
float and an int); when at least one is zero the check passes, in particular
height = 0 with nonzero height_in_units is accepted. -/
theorem bin_init_check_valueerror_iff (height : ℚ) (height_in_units : ℤ) :
    ((∃ e, Bin.init_check height height_in_units = Except.error e) ↔
      (height ≠ 0 ∧ height_in_units ≠ 0)) ∧
    (∀ h_units : ℤ, Bin.init_check 0 h_units = Except.ok ()) := by
  constructor
  · by_cases h : height ≠ 0 ∧ height_in_units ≠ 0
    · rw [Bin.init_check, if_pos h]
      exact ⟨fun _ => h, fun _ => ⟨(), rfl⟩⟩
    · rw [Bin.init_check, if_neg h]
      simp [h]
  · intro h_units
    rw [Bin.init_check, if_neg]
    simp

/-- C10: Direction.to_tuple is total on the six Direction members, sends each
to a signed unit vector (absolute values of the coordinates sum to 1), and
distinct members map to distinct vectors; the match is exhaustive, so the
ValueError branch documented in the Python docstring is unreachable. -/
theorem direction_to_tuple_signed_units :
    (∀ d : Direction,
      d ∈ [Direction.TOP, Direction.BOT, Direction.RIGHT,
            Direction.LEFT, Direction.BACK, Direction.FRONT]) ∧
    (∀ d : Direction,
      |(Direction.to_tuple d).1| + |(Direction.to_tuple d).2.1| +
        |(Direction.to_tuple d).2.2| = 1) ∧
    ([Direction.TOP, Direction.BOT, Direction.RIGHT,
      Direction.LEFT, Direction.BACK, Direction.FRONT].map Direction.to_tuple).Nodup := by
  refine ⟨?_, ?_, ?_⟩
  · intro d
    cases d <;> decide
  · intro d
    cases d <;> decide
  · decide

/-- Proof helper: running the inner create loop appends exactly the new
first occurrences of nonzero values to numbers_proccesed, and emits one
entry per newly processed value, in that order. -/
theorem Compartments.process_cells_state (grid : List (List ℤ)) (sx sy iw ow : ℚ)
    (row : List ℤ) (r_index : ℕ) :
    ∀ (cells : List ℤ) (c_index : ℕ) (st : List ℤ × List Entry),
      (Compartments.process_cells grid sx sy iw ow row r_index c_index cells st).1 =
        st.1 ++ Compartments.new_vals cells st.1 ∧
      (Compartments.process_cells grid sx sy iw ow row r_index c_index cells st).2.map
          Entry.value =
        st.2.map Entry.value ++ Compartments.new_vals cells st.1 := by
  intro cells
  induction cells with
  | nil =>
    intro c_index st
    simp [Compartments.process_cells, Compartments.new_vals]
  | cons item rest ih =>
    intro c_index st
    rw [Compartments.process_cells, Compartments.new_vals]
    by_cases h : item ≠ 0 ∧ item ∉ st.1
    · rw [if_pos h, if_pos h]
      rcases ih (c_index + 1)
        (st.1 ++ [item],
          st.2 ++ [Compartments.mkEntry grid sx sy iw ow row r_index c_index item]) with
        ⟨h1, h2⟩
      constructor
      · rw [h1]
        simp
      · rw [h2]
        simp [Compartments.mkEntry]
    · rw [if_neg h, if_neg h]
      exact ih (c_index + 1) st

/-- Proof helper: new_vals over a concatenation splits, the second part seeing
the values already collected in the first. -/
theorem Compartments.new_vals_append :
    ∀ (a b seen : List ℤ),
      Compartments.new_vals (a ++ b) seen =
        Compartments.new_vals a seen ++
          Compartments.new_vals b (seen ++ Compartments.new_vals a seen) := by
  intro a
  induction a with
  | nil =>
    intro b seen
    simp [Compartments.new_vals]
  | cons x xs ih =>
    intro b seen
    rw [List.cons_append, Compartments.new_vals, Compartments.new_vals]
    by_cases h : x ≠ 0 ∧ x ∉ seen
    · rw [if_pos h, if_pos h, ih]
      simp
    · rw [if_neg h, if_neg h]
      exact ih b seen

/-- Proof helper: the outer create loop collects the new first occurrences of
nonzero values of the flattened remaining rows. -/
theorem Compartments.process_rows_state (grid : List (List ℤ)) (sx sy iw ow : ℚ) :
    ∀ (rows : List (List ℤ)) (r_index : ℕ) (st : List ℤ × List Entry),
      (Compartments.process_rows grid sx sy iw ow r_index rows st).1 =
        st.1 ++ Compartments.new_vals rows.flatten st.1 ∧
      (Compartments.process_rows grid sx sy iw ow r_index rows st).2.map Entry.value =
        st.2.map Entry.value ++ Compartments.new_vals rows.flatten st.1 := by
  intro rows
  induction rows with
  | nil =>
    intro r_index st
    simp [Compartments.process_rows, Compartments.new_vals]
  | cons row rest ih =>
    intro r_index st
    rw [Compartments.process_rows, List.flatten_cons, Compartments.new_vals_append]
    rcases Compartments.process_cells_state grid sx sy iw ow row r_index row 0 st with ⟨h1, h2⟩
    rcases ih (r_index + 1)
      (Compartments.process_cells grid sx sy iw ow row r_index 0 row st) with ⟨h3, h4⟩
    constructor
    · rw [h3, h1]
      simp
    · rw [h4, h2, h1]
      simp

/-- Proof helper: the values the create loop processes are the first
occurrences of the nonzero values not already seen, in list order. -/
theorem Compartments.new_vals_eq_firstDedup_filter :
    ∀ (l seen : List ℤ),
      Compartments.new_vals l seen =
        (firstDedup (l.filter (fun v => decide (v ≠ 0)))).filter
          (fun v => decide (v ∉ seen)) := by
  intro l
  induction l with
  | nil => intro seen; simp [Compartments.new_vals, firstDedup]
  | cons x xs ih =>
    intro seen
    by_cases hx : x = 0
    · subst hx
      rw [Compartments.new_vals, if_neg (by simp)]
      rw [List.filter_cons, if_neg (by simp)]
      exact ih seen
    · rw [List.filter_cons, if_pos (by simp [hx]), firstDedup, List.filter_cons]
      by_cases hseen : x ∈ seen
      · rw [Compartments.new_vals, if_neg (by simp [hseen]), if_neg (by simp [hseen]), ih seen,
          List.filter_filter]
        apply List.filter_congr
        intro y _
        by_cases h1 : y ∈ seen
        · simp [h1]
        · have h2 : y ≠ x := fun hyx => h1 (hyx ▸ hseen)
          simp [h1, h2]
      · rw [Compartments.new_vals, if_pos ⟨hx, hseen⟩, if_pos (by simp [hseen]),
          ih (seen ++ [x]), List.filter_filter]
        congr 1
        apply List.filter_congr
        intro y _
        by_cases h1 : y ∈ seen
        · simp [h1, List.mem_append]
        · by_cases h2 : y = x
          · simp [h1, h2, List.mem_append]
          · simp [h1, h2, List.mem_append]

/-- Proof helper: firstDedup has no duplicates. -/
theorem firstDedup_nodup : ∀ l : List ℤ, (firstDedup l).Nodup := by
  intro l
  induction l with
  | nil => exact List.nodup_nil
  | cons x xs ih =>
    rw [firstDedup]
    refine List.Nodup.cons ?_ (List.Nodup.filter _ ih)
    intro hmem
    rcases List.mem_filter.mp hmem with ⟨_, hdec⟩
    simp at hdec

/-- Proof helper: firstDedup preserves membership. -/
theorem mem_firstDedup : ∀ (v : ℤ) (l : List ℤ), v ∈ firstDedup l ↔ v ∈ l := by
  intro v l
  induction l with
  | nil => simp [firstDedup]
  | cons x xs ih =>
    rw [firstDedup]
    by_cases hvx : v = x
    · simp [hvx]
    · simp only [List.mem_cons, List.mem_filter, ih, decide_eq_true_eq]
      constructor
      · rintro (h | ⟨h, _⟩)
        · exact Or.inl h
        · exact Or.inr h
      · rintro (h | h)
        · exact Or.inl h
        · exact Or.inr ⟨h, hvx⟩

/-- C1: on a well-formed grid, Compartments.create generates exactly one
compartment per distinct nonzero grid value, processing values in row-major
order of their first occurrence; zero cells generate no compartment and a
repeated value is processed only once. -/
theorem compartments_create_first_occurrence_order
    (grid : List (List ℤ)) (sx sy iw ow : ℚ)
    (hne : grid ≠ []) (hrows : ∀ row ∈ grid, row ≠ [])
    (hrect : ∀ row ∈ grid, row.length = (grid.headD []).length) :
    ((Compartments.create_entries grid sx sy iw ow).map Entry.value =
      firstDedup (grid.flatten.filter (fun v => decide (v ≠ 0)))) ∧
    ((Compartments.create_entries grid sx sy iw ow).map Entry.value).Nodup ∧
    (∀ v : ℤ, v ∈ (Compartments.create_entries grid sx sy iw ow).map Entry.value ↔
      (v ≠ 0 ∧ v ∈ grid.flatten)) := by
  have hmain : (Compartments.create_entries grid sx sy iw ow).map Entry.value =
      firstDedup (grid.flatten.filter (fun v => decide (v ≠ 0))) := by
    rw [Compartments.create_entries,
      (Compartments.process_rows_state grid sx sy iw ow grid 0 ([], [])).2]
    simp only [List.map_nil, List.nil_append]
    rw [Compartments.new_vals_eq_firstDedup_filter]
    exact List.filter_eq_self.mpr (fun a _ => by simp)
  refine ⟨hmain, ?_, ?_⟩
  · rw [hmain]
    exact firstDedup_nodup _
  · intro v
    rw [hmain, mem_firstDedup, List.mem_filter]
    simp only [decide_eq_true_eq]
    exact ⟨fun ⟨a, b⟩ => ⟨b, a⟩, fun ⟨a, b⟩ => ⟨b, a⟩⟩

/-- Witness for C1 at the grid [[1, 1, 2], [0, 3, 3]] with size 10 by 8,
inner wall 1, outer wall 1. -/
theorem compartments_create_first_occurrence_order_witness :
    (([[1, 1, 2], [0, 3, 3]] : List (List ℤ)) ≠ [] ∧
      (∀ row ∈ ([[1, 1, 2], [0, 3, 3]] : List (List ℤ)), row ≠ []) ∧
      (∀ row ∈ ([[1, 1, 2], [0, 3, 3]] : List (List ℤ)),
        row.length = (([[1, 1, 2], [0, 3, 3]] : List (List ℤ)).headD []).length)) ∧
    (((Compartments.create_entries [[1, 1, 2], [0, 3, 3]] 10 8 1 1).map Entry.value =
        firstDedup (([[1, 1, 2], [0, 3, 3]] : List (List ℤ)).flatten.filter
          (fun v => decide (v ≠ 0)))) ∧
      ((Compartments.create_entries [[1, 1, 2], [0, 3, 3]] 10 8 1 1).map Entry.value).Nodup ∧
      (∀ v : ℤ,
        v ∈ (Compartments.create_entries [[1, 1, 2], [0, 3, 3]] 10 8 1 1).map Entry.value ↔
          (v ≠ 0 ∧ v ∈ ([[1, 1, 2], [0, 3, 3]] : List (List ℤ)).flatten))) :=
  ⟨⟨by decide, by decide, by decide⟩,
    compartments_create_first_occurrence_order [[1, 1, 2], [0, 3, 3]] 10 8 1 1
      (by decide) (by decide) (by decide)⟩

/-- Proof helper: every entry emitted by the inner create loop either was
already in the state or is the mkEntry of one of the scanned cells, at its
actual column index. -/
theorem Compartments.process_cells_mem (grid : List (List ℤ)) (sx sy iw ow : ℚ)
    (row : List ℤ) (r_index : ℕ) :
    ∀ (cells : List ℤ) (c_index : ℕ) (st : List ℤ × List Entry) (e : Entry),
      e ∈ (Compartments.process_cells grid sx sy iw ow row r_index c_index cells st).2 →
      e ∈ st.2 ∨ ∃ i, i < cells.length ∧
        e = Compartments.mkEntry grid sx sy iw ow row r_index (c_index + i)
          (cells.getD i 0) := by
  intro cells
  induction cells with
  | nil =>
    intro c_index st e h
    exact Or.inl h
  | cons item rest ih =>
    intro c_index st e h
    rw [Compartments.process_cells] at h
    rcases ih (c_index + 1) _ e h with h1 | ⟨i, hi, he⟩
    · by_cases hcond : item ≠ 0 ∧ item ∉ st.1
      · rw [if_pos hcond] at h1
        rcases List.mem_append.mp h1 with h2 | h2
        · exact Or.inl h2
        · right
          refine ⟨0, by simp, ?_⟩
          rw [List.mem_singleton.mp h2]
          simp
      · rw [if_neg hcond] at h1
        exact Or.inl h1
    · right
      refine ⟨i + 1, by simpa using hi, ?_⟩
      rw [he, List.getD_cons_succ]
      have harith : c_index + 1 + i = c_index + (i + 1) := by omega
      rw [harith]

/-- Proof helper: every entry emitted by the outer create loop either was
already in the state or is the mkEntry of one of the grid cells, at its
actual row and column index. -/
theorem Compartments.process_rows_mem (grid : List (List ℤ)) (sx sy iw ow : ℚ) :
    ∀ (rows : List (List ℤ)) (r_index : ℕ) (st : List ℤ × List Entry) (e : Entry),
      e ∈ (Compartments.process_rows grid sx sy iw ow r_index rows st).2 →
      e ∈ st.2 ∨ ∃ j i, j < rows.length ∧ i < (rows.getD j []).length ∧
        e = Compartments.mkEntry grid sx sy iw ow (rows.getD j []) (r_index + j) i
          ((rows.getD j []).getD i 0) := by
  intro rows
  induction rows with
  | nil =>
    intro r_index st e h
    exact Or.inl h
  | cons row rest ih =>
    intro r_index st e h
    rw [Compartments.process_rows] at h
    rcases ih (r_index + 1) _ e h with h1 | ⟨j, i, hj, hi, he⟩
    · rcases Compartments.process_cells_mem grid sx sy iw ow row r_index row 0 st e h1 with
        h2 | ⟨i, hi, he⟩
      · exact Or.inl h2
      · right
        refine ⟨0, i, by simp, by simpa using hi, ?_⟩
        rw [he]
        simp
    · right
      refine ⟨j + 1, i, by simpa using hj, by simpa using hi, ?_⟩
      rw [he, List.getD_cons_succ]
      have harith : r_index + 1 + j = r_index + (j + 1) := by omega
      rw [harith]

/-- C3: every compartment generated by Compartments.create on a grid with m
rows and n columns, first occurring at row r and column c with run lengths
units_x and units_y, has size (A_x / n) * units_x - inner_wall by
(A_y / m) * units_y - inner_wall (with A_x = size_x - 2 outer_wall +
inner_wall and A_y likewise) and is placed at the image of the grid-index
midpoint under the linear maps, x = (c + units_x / 2) * (A_x / n) and
y = -((r + units_y / 2) * (A_y / m)). -/
theorem compartments_create_geometry (grid : List (List ℤ)) (sx sy iw ow : ℚ) (e : Entry)
    (he : e ∈ Compartments.create_entries grid sx sy iw ow) :
    e.r < grid.length ∧
    e.c < (grid.getD e.r []).length ∧
    e.value = (grid.getD e.r []).getD e.c 0 ∧
    e.units_x = Compartments.count_same_row e.c (grid.getD e.r []) ∧
    e.units_y = Compartments.count_same_column (e.r, e.c) grid ∧
    e.size_x = (sx - ow * 2 + iw) / ((grid.headD []).length : ℚ) * (e.units_x : ℚ) - iw ∧
    e.size_y = (sy - ow * 2 + iw) / ((grid.length : ℚ)) * (e.units_y : ℚ) - iw ∧
    e.loc_x = ((e.c : ℚ) + (e.units_x : ℚ) / 2) *
      ((sx - ow * 2 + iw) / ((grid.headD []).length : ℚ)) ∧
    e.loc_y = -(((e.r : ℚ) + (e.units_y : ℚ) / 2) *
      ((sy - ow * 2 + iw) / ((grid.length : ℚ)))) := by
  rcases Compartments.process_rows_mem grid sx sy iw ow grid 0 ([], []) e he with
    h | ⟨j, i, hj, hi, he2⟩
  · simp at h
  · subst he2
    simp only [Compartments.mkEntry, Compartments.map_range, Nat.zero_add]
    refine ⟨hj, hi, trivial, trivial, trivial, trivial, trivial, by ring, by ring⟩

/-- Witness for C3 at the grid [[1]] with size 10 by 10, inner wall 1 and
outer wall 1: the single generated compartment. -/
theorem compartments_create_geometry_witness :
    ((⟨1, 0, 0, 1, 1, 8, 8, 9 / 2, -9 / 2⟩ : Entry) ∈
      Compartments.create_entries [[1]] 10 10 1 1) ∧
    ((⟨1, 0, 0, 1, 1, 8, 8, 9 / 2, -9 / 2⟩ : Entry).r < ([[1]] : List (List ℤ)).length ∧
      (⟨1, 0, 0, 1, 1, 8, 8, 9 / 2, -9 / 2⟩ : Entry).c <
        (([[1]] : List (List ℤ)).getD (⟨1, 0, 0, 1, 1, 8, 8, 9 / 2, -9 / 2⟩ : Entry).r
          []).length ∧
      (⟨1, 0, 0, 1, 1, 8, 8, 9 / 2, -9 / 2⟩ : Entry).value =
        (([[1]] : List (List ℤ)).getD (⟨1, 0, 0, 1, 1, 8, 8, 9 / 2, -9 / 2⟩ : Entry).r
          []).getD (⟨1, 0, 0, 1, 1, 8, 8, 9 / 2, -9 / 2⟩ : Entry).c 0 ∧
      (⟨1, 0, 0, 1, 1, 8, 8, 9 / 2, -9 / 2⟩ : Entry).units_x =
        Compartments.count_same_row (⟨1, 0, 0, 1, 1, 8, 8, 9 / 2, -9 / 2⟩ : Entry).c
          (([[1]] : List (List ℤ)).getD (⟨1, 0, 0, 1, 1, 8, 8, 9 / 2, -9 / 2⟩ : Entry).r []) ∧
      (⟨1, 0, 0, 1, 1, 8, 8, 9 / 2, -9 / 2⟩ : Entry).units_y =
        Compartments.count_same_column
          ((⟨1, 0, 0, 1, 1, 8, 8, 9 / 2, -9 / 2⟩ : Entry).r,
            (⟨1, 0, 0, 1, 1, 8, 8, 9 / 2, -9 / 2⟩ : Entry).c) ([[1]] : List (List ℤ)) ∧
      (⟨1, 0, 0, 1, 1, 8, 8, 9 / 2, -9 / 2⟩ : Entry).size_x =
        (10 - 1 * 2 + 1) / ((([[1]] : List (List ℤ)).headD []).length : ℚ) *
          ((⟨1, 0, 0, 1, 1, 8, 8, 9 / 2, -9 / 2⟩ : Entry).units_x : ℚ) - 1 ∧
      (⟨1, 0, 0, 1, 1, 8, 8, 9 / 2, -9 / 2⟩ : Entry).size_y =
        (10 - 1 * 2 + 1) / ((([[1]] : List (List ℤ)).length : ℚ)) *
          ((⟨1, 0, 0, 1, 1, 8, 8, 9 / 2, -9 / 2⟩ : Entry).units_y : ℚ) - 1 ∧
      (⟨1, 0, 0, 1, 1, 8, 8, 9 / 2, -9 / 2⟩ : Entry).loc_x =
        (((⟨1, 0, 0, 1, 1, 8, 8, 9 / 2, -9 / 2⟩ : Entry).c : ℚ) +
            ((⟨1, 0, 0, 1, 1, 8, 8, 9 / 2, -9 / 2⟩ : Entry).units_x : ℚ) / 2) *
          ((10 - 1 * 2 + 1) / ((([[1]] : List (List ℤ)).headD []).length : ℚ)) ∧
      (⟨1, 0, 0, 1, 1, 8, 8, 9 / 2, -9 / 2⟩ : Entry).loc_y =
        -((((⟨1, 0, 0, 1, 1, 8, 8, 9 / 2, -9 / 2⟩ : Entry).r : ℚ) +
              ((⟨1, 0, 0, 1, 1, 8, 8, 9 / 2, -9 / 2⟩ : Entry).units_y : ℚ) / 2) *
            ((10 - 1 * 2 + 1) / ((([[1]] : List (List ℤ)).length : ℚ))))) := by
  have hmem : (⟨1, 0, 0, 1, 1, 8, 8, 9 / 2, -9 / 2⟩ : Entry) ∈
      Compartments.create_entries [[1]] 10 10 1 1 := by
    norm_num [Compartments.create_entries, Compartments.process_rows,
      Compartments.process_cells, Compartments.mkEntry, Compartments.map_range,
      Compartments.count_same_row, Compartments.count_same_column,
      Compartments.count_loop, Compartments.col_loop]
  exact ⟨hmem, compartments_create_geometry [[1]] 10 10 1 1 _ hmem⟩

/-- Proof helper: a row built by CompartmentsEqual has div_x cells. -/
theorem CompartmentsEqual.make_row_length :
    ∀ (n : ℕ) (s : ℤ), (CompartmentsEqual.make_row s n).length = n := by
  intro n
  induction n with
  | zero => intro s; rfl
  | succ n ih =>
    intro s
    rw [CompartmentsEqual.make_row, List.length_cons, ih]

/-- Proof helper: a row built by CompartmentsEqual holds the consecutive
integers starting at the counter. -/
theorem CompartmentsEqual.make_row_eq_range :
    ∀ (n : ℕ) (s : ℤ),
      CompartmentsEqual.make_row s n = (List.range n).map (fun (k : ℕ) => s + (k : ℤ)) := by
  intro n
  induction n with
  | zero => intro s; rfl
  | succ n ih =>
    intro s
    rw [CompartmentsEqual.make_row, ih (s + 1), List.range_succ_eq_map, List.map_cons,
      List.map_map]
    have hzero : s + ((0 : ℕ) : ℤ) = s := by norm_num
    rw [hzero]
    congr 1
    apply List.map_congr_left
    intro k _
    simp only [Function.comp_apply, Nat.succ_eq_add_one]
    push_cast
    ring

/-- Proof helper: cell c of a CompartmentsEqual row is the counter plus c. -/
theorem CompartmentsEqual.make_row_getD :
    ∀ (n : ℕ) (s : ℤ) (c : ℕ), c < n →
      (CompartmentsEqual.make_row s n).getD c 0 = s + (c : ℤ) := by
  intro n
  induction n with
  | zero => intro s c hc; omega
  | succ n ih =>
    intro s c hc
    rw [CompartmentsEqual.make_row]
    cases c with
    | zero => simp
    | succ c =>
      rw [List.getD_cons_succ, ih (s + 1) c (by omega)]
      push_cast
      ring

/-- Proof helper: the CompartmentsEqual grid has div_y rows. -/
theorem CompartmentsEqual.make_grid_length (div_x : ℕ) :
    ∀ (dy : ℕ) (s : ℤ), (CompartmentsEqual.make_grid div_x s dy).length = dy := by
  intro dy
  induction dy with
  | zero => intro s; rfl
  | succ dy ih =>
    intro s
    rw [CompartmentsEqual.make_grid, List.length_cons, ih]

/-- Proof helper: every row of the CompartmentsEqual grid has div_x cells. -/
theorem CompartmentsEqual.make_grid_row_length (div_x : ℕ) :
    ∀ (dy : ℕ) (s : ℤ) (row : List ℤ), row ∈ CompartmentsEqual.make_grid div_x s dy →
      row.length = div_x := by
  intro dy
  induction dy with
  | zero => intro s row h; simp [CompartmentsEqual.make_grid] at h
  | succ dy ih =>
    intro s row h
    rw [CompartmentsEqual.make_grid] at h
    rcases List.mem_cons.mp h with h1 | h1
    · rw [h1, CompartmentsEqual.make_row_length]
    · exact ih (s + (div_x : ℤ)) row h1

/-- Proof helper: row j of the CompartmentsEqual grid starts at the counter
advanced by div_x per preceding row. -/
theorem CompartmentsEqual.make_grid_getD (div_x : ℕ) :
    ∀ (dy : ℕ) (s : ℤ) (j : ℕ), j < dy →
      (CompartmentsEqual.make_grid div_x s dy).getD j [] =
        CompartmentsEqual.make_row (s + (div_x : ℤ) * (j : ℤ)) div_x := by
  intro dy
  induction dy with
  | zero => intro s j hj; omega
  | succ dy ih =>
    intro s j hj
    rw [CompartmentsEqual.make_grid]
    cases j with
    | zero => simp
    | succ j =>
      rw [List.getD_cons_succ, ih (s + (div_x : ℤ)) j (by omega)]
      congr 1
      push_cast
      ring

/-- Proof helper: make_row splits over a sum of lengths. -/
theorem CompartmentsEqual.make_row_append :
    ∀ (a b : ℕ) (s : ℤ),
      CompartmentsEqual.make_row s (a + b) =
        CompartmentsEqual.make_row s a ++ CompartmentsEqual.make_row (s + (a : ℤ)) b := by
  intro a
  induction a with
  | zero =>
    intro b s
    rw [Nat.zero_add, CompartmentsEqual.make_row]
    norm_num
  | succ a ih =>
    intro b s
    have harith : (a + 1) + b = (a + b) + 1 := by omega
    rw [harith, CompartmentsEqual.make_row, CompartmentsEqual.make_row, ih b (s + 1),
      List.cons_append]
    congr 2
    push_cast
    ring

/-- Proof helper: flattening the CompartmentsEqual grid row-major yields the
consecutive run of div_y * div_x integers starting at the counter. -/
theorem CompartmentsEqual.make_grid_flatten (div_x : ℕ) :
    ∀ (dy : ℕ) (s : ℤ),
      (CompartmentsEqual.make_grid div_x s dy).flatten =
        CompartmentsEqual.make_row s (dy * div_x) := by
  intro dy
  induction dy with
  | zero =>
    intro s
    rw [Nat.zero_mul]
    rfl
  | succ dy ih =>
    intro s
    have harith : (dy + 1) * div_x = div_x + dy * div_x := by ring
    rw [CompartmentsEqual.make_grid, List.flatten_cons, ih (s + (div_x : ℤ)), harith,
      CompartmentsEqual.make_row_append]

/-- Proof helper: every value in a CompartmentsEqual row is at least the
starting counter. -/
theorem CompartmentsEqual.make_row_le_mem :
    ∀ (n : ℕ) (s v : ℤ), v ∈ CompartmentsEqual.make_row s n → s ≤ v := by
  intro n
  induction n with
  | zero => intro s v h; simp [CompartmentsEqual.make_row] at h
  | succ n ih =>
    intro s v h
    rw [CompartmentsEqual.make_row] at h
    rcases List.mem_cons.mp h with h1 | h1
    · omega
    · have := ih (s + 1) v h1
      omega

/-- Proof helper: a CompartmentsEqual row has no duplicates. -/
theorem CompartmentsEqual.make_row_nodup (n : ℕ) (s : ℤ) :
    (CompartmentsEqual.make_row s n).Nodup := by
  rw [CompartmentsEqual.make_row_eq_range]
  refine List.Nodup.map ?_ (List.nodup_range n)
  intro a b hab
  have hab2 : s + (a : ℤ) = s + (b : ℤ) := hab
  have : (a : ℤ) = (b : ℤ) := by omega
  exact_mod_cast this

/-- Proof helper: firstDedup of a duplicate-free list is the list itself. -/
theorem firstDedup_of_nodup : ∀ l : List ℤ, l.Nodup → firstDedup l = l := by
  intro l
  induction l with
  | nil => intro h; rfl
  | cons x xs ih =>
    intro h
    rw [firstDedup, ih (List.Nodup.of_cons h)]
    congr 1
    refine List.filter_eq_self.mpr ?_
    intro y hy
    have hx : x ∉ xs := (List.nodup_cons.mp h).1
    have : y ≠ x := fun hyx => hx (hyx ▸ hy)
    simpa using this


/-- Proof helper: in a strictly increasing CompartmentsEqual row starting at a
positive counter, every run length in the row is exactly 1. -/
theorem CompartmentsEqual.make_row_run_one (dx : ℕ) (s : ℤ) (hs : 0 < s) (c : ℕ)
    (hc : c < dx) :
    Compartments.count_same_row c (CompartmentsEqual.make_row s dx) = 1 := by
  have hlen : (CompartmentsEqual.make_row s dx).length = dx :=
    CompartmentsEqual.make_row_length dx s
  have hnum : (CompartmentsEqual.make_row s dx).getD c 0 = s + (c : ℤ) :=
    CompartmentsEqual.make_row_getD dx s c hc
  have hk : Compartments.count_same_row c (CompartmentsEqual.make_row s dx) =
      Compartments.count_loop ((CompartmentsEqual.make_row s dx).getD c 0)
        ((CompartmentsEqual.make_row s dx).drop c) := rfl
  have hdlen : ((CompartmentsEqual.make_row s dx).drop c).length = dx - c := by
    rw [List.length_drop, hlen]
  have h0 : ((CompartmentsEqual.make_row s dx).drop c).getD 0 0 =
      (CompartmentsEqual.make_row s dx).getD c 0 :=
    drop_getD 0 (CompartmentsEqual.make_row s dx) c 0
  have hge : 1 ≤ Compartments.count_loop ((CompartmentsEqual.make_row s dx).getD c 0)
      ((CompartmentsEqual.make_row s dx).drop c) := by
    rcases Compartments.count_loop_boundary ((CompartmentsEqual.make_row s dx).getD c 0)
      ((CompartmentsEqual.make_row s dx).drop c) with heq | ⟨hlt, hne⟩
    · rw [heq, hdlen]
      omega
    · rcases Nat.eq_zero_or_pos (Compartments.count_loop
        ((CompartmentsEqual.make_row s dx).getD c 0)
        ((CompartmentsEqual.make_row s dx).drop c)) with hz | hp
      · rw [hz] at hne
        exact absurd h0 hne
      · omega
  have hle : Compartments.count_loop ((CompartmentsEqual.make_row s dx).getD c 0)
      ((CompartmentsEqual.make_row s dx).drop c) ≤ 1 := by
    by_contra hgt
    push_neg at hgt
    have h1 := Compartments.count_loop_prefix ((CompartmentsEqual.make_row s dx).getD c 0)
      ((CompartmentsEqual.make_row s dx).drop c) 1 (by omega)
    rw [drop_getD] at h1
    by_cases hin : c + 1 < dx
    · rw [CompartmentsEqual.make_row_getD dx s (c + 1) hin, hnum] at h1
      push_cast at h1
      omega
    · have hout : (CompartmentsEqual.make_row s dx).length ≤ c + 1 := by
        rw [hlen]
        omega
      rw [List.getD_eq_default _ 0 hout, hnum] at h1
      omega
  rw [hk]
  omega

/-- Proof helper: in the CompartmentsEqual grid all cell labels are distinct,
so every run length in a column is exactly 1. -/
theorem CompartmentsEqual.grid_col_run_one (dx dy : ℕ) (hx : 1 ≤ dx) (r c : ℕ)
    (hr : r < dy) (hc : c < dx) :
    Compartments.count_same_column (r, c) (CompartmentsEqual.grid dx dy) = 1 := by
  have hgridlen : (CompartmentsEqual.grid dx dy).length = dy :=
    CompartmentsEqual.make_grid_length dx dy 1
  have hrow : (CompartmentsEqual.grid dx dy).getD r [] =
      CompartmentsEqual.make_row (1 + (dx : ℤ) * (r : ℤ)) dx :=
    CompartmentsEqual.make_grid_getD dx dy 1 r hr
  have hnum : ((CompartmentsEqual.grid dx dy).getD r []).getD c 0 =
      1 + (dx : ℤ) * (r : ℤ) + (c : ℤ) := by
    rw [hrow, CompartmentsEqual.make_row_getD dx _ c hc]
  have hk : Compartments.count_same_column (r, c) (CompartmentsEqual.grid dx dy) =
      Compartments.col_loop (((CompartmentsEqual.grid dx dy).getD r []).getD c 0) c
        ((CompartmentsEqual.grid dx dy).drop r) := rfl
  have hdlen : ((CompartmentsEqual.grid dx dy).drop r).length = dy - r := by
    rw [List.length_drop, hgridlen]
  have h0 : (((CompartmentsEqual.grid dx dy).drop r).getD 0 []).getD c 0 =
      ((CompartmentsEqual.grid dx dy).getD r []).getD c 0 := by
    rw [drop_getD ([] : List ℤ) (CompartmentsEqual.grid dx dy) r 0]
    norm_num
  have hge : 1 ≤ Compartments.col_loop (((CompartmentsEqual.grid dx dy).getD r []).getD c 0) c
      ((CompartmentsEqual.grid dx dy).drop r) := by
    rcases Compartments.col_loop_boundary
      (((CompartmentsEqual.grid dx dy).getD r []).getD c 0) c
      ((CompartmentsEqual.grid dx dy).drop r) with heq | ⟨hlt, hne⟩
    · rw [heq, hdlen]
      omega
    · rcases Nat.eq_zero_or_pos (Compartments.col_loop
        (((CompartmentsEqual.grid dx dy).getD r []).getD c 0) c
        ((CompartmentsEqual.grid dx dy).drop r)) with hz | hp
      · rw [hz] at hne
        exact absurd h0 hne
      · omega
  have hle : Compartments.col_loop (((CompartmentsEqual.grid dx dy).getD r []).getD c 0) c
      ((CompartmentsEqual.grid dx dy).drop r) ≤ 1 := by
    by_contra hgt
    push_neg at hgt
    have h1 := Compartments.col_loop_prefix
      (((CompartmentsEqual.grid dx dy).getD r []).getD c 0) c
      ((CompartmentsEqual.grid dx dy).drop r) 1 (by omega)
    rw [drop_getD ([] : List ℤ) (CompartmentsEqual.grid dx dy) r 1] at h1
    by_cases hin : r + 1 < dy
    · have hnext : (CompartmentsEqual.grid dx dy).getD (r + 1) [] =
          CompartmentsEqual.make_row (1 + (dx : ℤ) * ((r + 1 : ℕ) : ℤ)) dx :=
        CompartmentsEqual.make_grid_getD dx dy 1 (r + 1) hin
      rw [hnext, CompartmentsEqual.make_row_getD dx _ c hc, hnum] at h1
      have hexp : (dx : ℤ) * (((r + 1 : ℕ) : ℤ)) = (dx : ℤ) * (r : ℤ) + (dx : ℤ) := by
        push_cast
        ring
      rw [hexp] at h1
      have hd1 : (1 : ℤ) ≤ (dx : ℤ) := by exact_mod_cast hx
      linarith
    · have hout : (CompartmentsEqual.grid dx dy).length ≤ r + 1 := by omega
      rw [List.getD_eq_default (CompartmentsEqual.grid dx dy) ([] : List ℤ) hout] at h1
      have hnil : (([] : List ℤ)).getD c 0 = 0 := by simp
      rw [hnil, hnum] at h1
      have hdr : (0 : ℤ) ≤ (dx : ℤ) * (r : ℤ) := by positivity
      linarith
  rw [hk]
  omega

/-- Proof helper: on the CompartmentsEqual grid the create loop emits exactly
div_x * div_y compartments, one per cell. -/
theorem CompartmentsEqual.entries_length (dx dy : ℕ) (sx sy iw ow : ℚ) :
    (Compartments.create_entries (CompartmentsEqual.grid dx dy) sx sy iw ow).length =
      dx * dy := by
  have hmap : (Compartments.create_entries (CompartmentsEqual.grid dx dy) sx sy iw ow).map
      Entry.value = Compartments.new_vals (CompartmentsEqual.grid dx dy).flatten [] := by
    rw [Compartments.create_entries,
      (Compartments.process_rows_state (CompartmentsEqual.grid dx dy) sx sy iw ow
        (CompartmentsEqual.grid dx dy) 0 ([], [])).2]
    simp
  have hflat : (CompartmentsEqual.grid dx dy).flatten =
      CompartmentsEqual.make_row 1 (dy * dx) := CompartmentsEqual.make_grid_flatten dx dy 1
  have hnz : ∀ v ∈ CompartmentsEqual.make_row 1 (dy * dx),
      (fun v => decide (v ≠ 0)) v = true := by
    intro v hv
    have := CompartmentsEqual.make_row_le_mem (dy * dx) 1 v hv
    simp only [decide_eq_true_eq]
    omega
  rw [← List.length_map
      (Compartments.create_entries (CompartmentsEqual.grid dx dy) sx sy iw ow) Entry.value,
    hmap, Compartments.new_vals_eq_firstDedup_filter,
    List.filter_eq_self.mpr (fun a _ => by simp), hflat,
    List.filter_eq_self.mpr hnz,
    firstDedup_of_nodup _ (CompartmentsEqual.make_row_nodup (dy * dx) 1),
    CompartmentsEqual.make_row_length, Nat.mul_comm]

/-- C8: CompartmentsEqual.__init__(div_x, div_y) builds a grid of div_y rows
of div_x cells holding the distinct consecutive integers 1 .. div_x * div_y
in row-major order; every cell label is unique and nonzero, all row and
column run lengths equal 1, and Compartments.create generates exactly
div_x * div_y compartments from this grid. -/
theorem compartments_equal_grid_spec (dx dy : ℕ) (hx : 1 ≤ dx) (hy : 1 ≤ dy)
    (sx sy iw ow : ℚ) :
    (CompartmentsEqual.grid dx dy).length = dy ∧
    (∀ row ∈ CompartmentsEqual.grid dx dy, row.length = dx) ∧
    (CompartmentsEqual.grid dx dy).flatten =
      (List.range (dx * dy)).map (fun (k : ℕ) => (k : ℤ) + 1) ∧
    (CompartmentsEqual.grid dx dy).flatten.Nodup ∧
    (∀ v ∈ (CompartmentsEqual.grid dx dy).flatten, v ≠ 0) ∧
    (∀ r c : ℕ, r < dy → c < dx →
      Compartments.count_same_row c ((CompartmentsEqual.grid dx dy).getD r []) = 1 ∧
      Compartments.count_same_column (r, c) (CompartmentsEqual.grid dx dy) = 1) ∧
    (Compartments.create_entries (CompartmentsEqual.grid dx dy) sx sy iw ow).length =
      dx * dy := by
  have hflat : (CompartmentsEqual.grid dx dy).flatten =
      CompartmentsEqual.make_row 1 (dy * dx) := CompartmentsEqual.make_grid_flatten dx dy 1
  refine ⟨CompartmentsEqual.make_grid_length dx dy 1,
    fun row h => CompartmentsEqual.make_grid_row_length dx dy 1 row h, ?_, ?_, ?_, ?_,
    CompartmentsEqual.entries_length dx dy sx sy iw ow⟩
  · rw [hflat, CompartmentsEqual.make_row_eq_range, Nat.mul_comm]
    apply List.map_congr_left
    intro k _
    omega
  · rw [hflat]
    exact CompartmentsEqual.make_row_nodup (dy * dx) 1
  · intro v hv
    rw [hflat] at hv
    have := CompartmentsEqual.make_row_le_mem (dy * dx) 1 v hv
    omega
  · intro r c hr hc
    refine ⟨?_, CompartmentsEqual.grid_col_run_one dx dy hx r c hr hc⟩
    have hrowD : (CompartmentsEqual.grid dx dy).getD r [] =
        CompartmentsEqual.make_row (1 + (dx : ℤ) * (r : ℤ)) dx :=
      CompartmentsEqual.make_grid_getD dx dy 1 r hr
    rw [hrowD]
    exact CompartmentsEqual.make_row_run_one dx _ (by positivity) c hc

/-- Witness for C8 at div_x = 2, div_y = 2 with size 10 by 8, inner wall 1
and outer wall 1. -/
theorem compartments_equal_grid_spec_witness :
    ((1 : ℕ) ≤ 2 ∧ (1 : ℕ) ≤ 2) ∧
    ((CompartmentsEqual.grid 2 2).length = 2 ∧
      (∀ row ∈ CompartmentsEqual.grid 2 2, row.length = 2) ∧
      (CompartmentsEqual.grid 2 2).flatten =
        (List.range (2 * 2)).map (fun (k : ℕ) => (k : ℤ) + 1) ∧
      (CompartmentsEqual.grid 2 2).flatten.Nodup ∧
      (∀ v ∈ (CompartmentsEqual.grid 2 2).flatten, v ≠ 0) ∧
      (∀ r c : ℕ, r < 2 → c < 2 →
        Compartments.count_same_row c ((CompartmentsEqual.grid 2 2).getD r []) = 1 ∧
        Compartments.count_same_column (r, c) (CompartmentsEqual.grid 2 2) = 1) ∧
      (Compartments.create_entries (CompartmentsEqual.grid 2 2) 10 8 1 1).length = 2 * 2) :=
  ⟨⟨by decide, by decide⟩, compartments_equal_grid_spec 2 2 (by decide) (by decide) 10 8 1 1⟩
